import Mathlib

/-!
A shallow embedding of the blobfs package (blobfs.go): a read-only file
system over a blob-storage backend.  Go strings are modelled as lists of
characters, int64 as Int, byte buffers as lists of naturals, and the
backend bucket as a record of response functions.  Go (value, error)
returns are modelled as Except when the value is nil exactly on error,
and as pairs with an Option error otherwise.
-/

namespace Blobfs

/-- Strings are modelled as lists of characters. -/
abbrev Str := List Char

/-- Go error values that the package creates, compares against, or
propagates.  Distinct constructors model distinct sentinel errors
(io.EOF, fs.ErrNotExist, fs.ErrInvalid, the two errors.New messages);
`backend` stands for an arbitrary error produced by the blob backend,
and `pathError` models fs.PathError wrapping (op, path, cause). -/
inductive Err : Type where
  | eof : Err
  | notExist : Err
  | invalid : Err
  | isADirectory : Err
  | notADirectory : Err
  | backend : Nat → Err
  | pathError : Str → Str → Err → Err
  deriving DecidableEq

/-- The op name constants of blobfs.go. -/
def opOpen : Str := ['o', 'p', 'e', 'n']

/-- Op name for read. -/
def opRead : Str := ['r', 'e', 'a', 'd']

/-- Op name for seek. -/
def opSeek : Str := ['s', 'e', 'e', 'k']

/-- blob.ListObject: one result of a bucket listing. -/
structure ListObject : Type where
  key : Str
  modTime : Int
  size : Int
  md5 : List Nat
  isDir : Bool
  deriving DecidableEq

/-- blob.Attributes: the fields the package reads. -/
structure Attributes : Type where
  modTime : Int
  size : Int
  md5 : List Nat
  deriving DecidableEq

/-- blob.ListOptions: delimiter and prefix (field renamed to pfx). -/
structure ListOptions : Type where
  delimiter : Str
  pfx : Str
  deriving DecidableEq

/-- The observable behaviour of one blob.Reader produced by
NewRangeReader: the bytes its Read call writes into the buffer, the
error Read returns alongside them, and the error Close returns. -/
structure RangeReader : Type where
  data : List Nat
  readErr : Option Err
  closeErr : Option Err
  deriving DecidableEq

/-- The blob.Bucket backend, as the pure response functions the package
consumes: Attributes, List (the finite sequence of results the iterator
yields before its terminal io.EOF), and NewRangeReader. -/
structure Bucket : Type where
  attributes : Str → Except Err Attributes
  listResults : ListOptions → List (Except Err ListObject)
  newRangeReader : Str → Int → Int → Except Err RangeReader

/-- fileListEntry: an Entry wrapping one ListObject. -/
structure fileListEntry : Type where
  obj : ListObject
  deriving DecidableEq

/-- strings.Split(s, "/"): split on the separator, keeping empty
segments; always returns at least one segment. -/
def splitSlash : Str → List Str
  | [] => [[]]
  | c :: cs =>
    if c = '/' then [] :: splitSlash cs
    else
      match splitSlash cs with
      | [] => [[c]]
      | e :: rest => (c :: e) :: rest

/-- One element of fs.ValidPath's iteration: a path element is valid
when it is not empty, ".", or "..". -/
def validElem (e : Str) : Bool :=
  if e = [] ∨ e = ['.'] ∨ e = ['.', '.'] then false else true

/-- fs.ValidPath: "." is the root; otherwise every slash-separated
element must be non-empty and neither "." nor "..". -/
def validPath (name : Str) : Bool :=
  if name = ['.'] then true
  else (splitSlash name).all validElem

/-- strings.TrimSuffix(s, "/"): drop one trailing separator if present. -/
def trimSuffixSlash (s : Str) : Str :=
  if s.getLast? = some '/' then s.dropLast else s

/-- fileListEntry.Name: "." for the empty (root) key, otherwise the
final path segment of the key with one trailing separator stripped. -/
def fileListEntry.Name (e : fileListEntry) : Str :=
  if e.obj.key = [] then ['.']
  else
    let name := trimSuffixSlash e.obj.key
    (splitSlash name).getLastD []

/-- fileListEntry.Size. -/
def fileListEntry.Size (e : fileListEntry) : Int := e.obj.size

/-- fileListEntry.IsDir. -/
def fileListEntry.IsDir (e : fileListEntry) : Bool := e.obj.isDir

/-- fileListEntry.Path. -/
def fileListEntry.Path (e : fileListEntry) : Str := e.obj.key

/-- The rootFile entry: empty key, zero time and size, directory. -/
def rootFile : fileListEntry := ⟨⟨[], 0, 0, [], true⟩⟩

/-- FS.searchDir: trim one trailing separator, list with delimiter "/"
and the name as prefix, and inspect only the first iterator result:
terminal io.EOF (empty listing) gives fs.ErrNotExist, another listing
error propagates, and an object is a directory marker exactly when its
key is the name followed by the separator. -/
def searchDir (bucket : Bucket) (name : Str) : Except Err fileListEntry :=
  let name := trimSuffixSlash name
  match bucket.listResults ⟨['/'], name⟩ with
  | [] => .error .notExist
  | .error .eof :: _ => .error .notExist
  | .error e :: _ => .error e
  | .ok obj :: _ =>
    if obj.key = name ++ ['/'] then .ok ⟨obj⟩
    else .error .notExist

/-- FS.lookup: reject invalid paths, resolve "." to the root entry,
otherwise try Attributes first (success yields a file entry for the
exact key) and fall back to searchDir when Attributes returns any
error. -/
def lookup (bucket : Bucket) (name : Str) : Except Err fileListEntry :=
  if validPath name = false then .error .invalid
  else if name = ['.'] then .ok rootFile
  else
    match bucket.attributes name with
    | .ok attr => .ok ⟨⟨name, attr.modTime, attr.size, attr.md5, false⟩⟩
    | .error _ => searchDir bucket name

/-- An open file handle: the resolved entry and the mutable cursor. -/
structure openFile : Type where
  self : fileListEntry
  offset : Int
  deriving DecidableEq

/-- newOpenFile: fresh handle with cursor 0 (construction cannot fail). -/
def newOpenFile (entry : fileListEntry) : openFile := ⟨entry, 0⟩

/-- The effect of r.Read(b) on the buffer b: the reader's bytes
overwrite the front of the buffer, the rest keeps its old contents. -/
def writeInto (b : List Nat) (data : List Nat) : List Nat :=
  data.take b.length ++ b.drop (min data.length b.length)

/-- openFile.Read: empty buffer is a no-op; cursor at or past the size
returns io.EOF; otherwise one ranged backend read at the cursor for the
buffer length, the cursor advances by the bytes returned, and the Read
error (or else the Close error) is returned alongside the count.  The
result is (updated handle, count, error). -/
def openFile.Read (bucket : Bucket) (f : openFile) (b : List Nat) :
    openFile × Nat × Option Err :=
  if b.length = 0 then (f, 0, none)
  else if f.self.Size ≤ f.offset then (f, 0, some .eof)
  else
    match bucket.newRangeReader f.self.Path f.offset (b.length : Int) with
    | .error e => (f, 0, some (.pathError opRead f.self.Path e))
    | .ok r =>
      let size := r.data.length
      match r.readErr with
      | some e => (⟨f.self, f.offset + (size : Int)⟩, size, some e)
      | none => (⟨f.self, f.offset + (size : Int)⟩, size, r.closeErr)

/-- openFile.ReadAt: like Read but against an explicit offset, never
touching the cursor; additionally, when the read ends exactly at the
entry size the error is forced to io.EOF.  The result is (handle after
the call, updated buffer, count, error); every branch returns the
handle unchanged, mirroring that the method never assigns the cursor. -/
def openFile.ReadAt (bucket : Bucket) (f : openFile) (b : List Nat) (offset : Int) :
    openFile × List Nat × Nat × Option Err :=
  if b.length = 0 then (f, b, 0, none)
  else if f.self.Size ≤ offset then (f, b, 0, some .eof)
  else
    match bucket.newRangeReader f.self.Path offset (b.length : Int) with
    | .error e => (f, b, 0, some (.pathError opRead f.self.Path e))
    | .ok r =>
      let size := r.data.length
      let b2 := writeInto b r.data
      if offset + (size : Int) = f.self.Size then (f, b2, size, some .eof)
      else
        match r.readErr with
        | some e => (f, b2, size, some e)
        | none => (f, b2, size, r.closeErr)

/-- openFile.Seek: whence 0/1/2 select start/current/end as the base of
the target offset; an unrecognized whence or a target outside
[0, size] is rejected with the cursor unchanged; success stores and
returns the target. -/
def openFile.Seek (f : openFile) (offset : Int) (whence : Int) :
    openFile × Int × Option Err :=
  if whence = 0 ∨ whence = 1 ∨ whence = 2 then
    let target : Int :=
      if whence = 1 then offset + f.offset
      else if whence = 2 then offset + f.self.Size
      else offset
    if target < 0 ∨ f.self.Size < target then
      (f, 0, some (.pathError opSeek f.self.Path .invalid))
    else (⟨f.self, target⟩, target, none)
  else (f, 0, some (.pathError opSeek f.self.Path .invalid))

/-- An open directory handle: the entry, the children fetched at open
time, and the pagination cursor. -/
structure openDir : Type where
  self : fileListEntry
  entries : List fileListEntry
  offset : Nat
  deriving DecidableEq

/-- The listing loop of newOpenDir: collect every yielded object into
an entry until the terminal io.EOF; any other mid-listing error aborts
the whole construction. -/
def collectEntries : List (Except Err ListObject) → Except Err (List fileListEntry)
  | [] => .ok []
  | .error .eof :: _ => .ok []
  | .error e :: _ => .error e
  | .ok obj :: rest =>
    match collectEntries rest with
    | .error e => .error e
    | .ok l => .ok (⟨obj⟩ :: l)

/-- newOpenDir: list with delimiter "/" and the entry's path as prefix
and materialize all children. -/
def newOpenDir (bucket : Bucket) (entry : fileListEntry) : Except Err openDir :=
  match collectEntries (bucket.listResults ⟨['/'], entry.Path⟩) with
  | .error e => .error e
  | .ok files => .ok ⟨entry, files, 0⟩

/-- openDir.ReadDir: count is the number of remaining children, capped
at n when n > 0; zero remaining yields (nil, nil) for n <= 0 and
(nil, io.EOF) for n > 0; otherwise the next count children are
returned and the cursor advances by count. -/
def openDir.ReadDir (d : openDir) (n : Int) :
    openDir × List fileListEntry × Option Err :=
  let count0 : Int := (d.entries.length : Int) - (d.offset : Int)
  let count : Int := if 0 < n ∧ n < count0 then n else count0
  if count = 0 then
    if n ≤ 0 then (d, [], none)
    else (d, [], some .eof)
  else
    (⟨d.self, d.entries, d.offset + count.toNat⟩,
      (d.entries.drop d.offset).take count.toNat, none)

/-- The fs.File returned by Open: a file or a directory handle. -/
inductive OpenResult : Type where
  | file : openFile → OpenResult
  | dir : openDir → OpenResult
  deriving DecidableEq

/-- FS.Open: resolve the path, wrap any resolution or directory-listing
failure in a PathError with op "open", and build the matching handle. -/
def Open (bucket : Bucket) (name : Str) : Except Err OpenResult :=
  match lookup bucket name with
  | .error e => .error (.pathError opOpen name e)
  | .ok e =>
    if e.IsDir then
      match newOpenDir bucket e with
      | .error err => .error (.pathError opOpen name err)
      | .ok d => .ok (.dir d)
    else .ok (.file (newOpenFile e))

/-- FS.ReadFile: open the path; a directory handle fails with the
"is a directory" PathError; otherwise allocate a zeroed buffer of the
entry's declared size, perform one ReadAt at offset 0, and return the
filled buffer exactly when the error is io.EOF, and (nil, that error)
otherwise.  The result models Go's ([]byte, error) pair: the first
component is none exactly when the returned byte slice is nil. -/
def ReadFile (bucket : Bucket) (name : Str) : Option (List Nat) × Option Err :=
  match Open bucket name with
  | .error e => (none, some e)
  | .ok (.dir _) => (none, some (.pathError opRead name .isADirectory))
  | .ok (.file f) =>
    let b := List.replicate f.self.Size.toNat 0
    match f.ReadAt bucket b 0 with
    | (_, b2, _, err) =>
      if err = some .eof then (some b2, none)
      else (none, err)

/-! ### Helper lemmas -/

theorem splitSlash_ne_nil (s : Str) : splitSlash s ≠ [] := by
  cases s with
  | nil => simp [splitSlash]
  | cons c cs =>
    simp only [splitSlash]
    split
    · simp
    · rcases h : splitSlash cs with _ | ⟨e, rest⟩ <;> simp

theorem splitSlash_append_slash (s : Str) :
    splitSlash (s ++ ['/']) = splitSlash s ++ [[]] := by
  induction s with
  | nil => simp [splitSlash]
  | cons c cs ih =>
    show splitSlash (c :: (cs ++ ['/'])) = splitSlash (c :: cs) ++ [[]]
    simp only [splitSlash]
    split
    · rw [ih]
      rfl
    · rcases h : splitSlash cs with _ | ⟨e, rest⟩
      · exact absurd h (splitSlash_ne_nil cs)
      · rw [ih, h]
        simp

theorem validPath_getLast_ne_slash (s : Str) (h : validPath s = true) :
    s.getLast? ≠ some '/' := by
  intro hlast
  have hne : s ≠ ['.'] := by
    rintro rfl
    simp [List.getLast?] at hlast
  have hs : s ≠ [] := by
    rintro rfl
    simp at hlast
  rw [validPath, if_neg hne] at h
  have hdecomp := List.dropLast_append_getLast hs
  have hlast2 : s.getLast hs = '/' := by
    have h2 := List.getLast?_eq_getLast s hs
    exact Option.some.inj (h2.symm.trans hlast)
  rw [← hdecomp, hlast2, splitSlash_append_slash, List.all_append] at h
  simp [validElem] at h

theorem trimSuffixSlash_of_validPath (s : Str) (h : validPath s = true) :
    trimSuffixSlash s = s := by
  rw [trimSuffixSlash, if_neg (validPath_getLast_ne_slash s h)]

theorem slash_not_mem_of_mem_splitSlash (s : Str) :
    ∀ x, x ∈ splitSlash s → '/' ∉ x := by
  induction s with
  | nil =>
    intro x hx
    simp [splitSlash] at hx
    simp [hx]
  | cons c cs ih =>
    intro x hx
    simp only [splitSlash] at hx
    by_cases hc : c = '/'
    · rw [if_pos hc] at hx
      rcases List.mem_cons.mp hx with hx | hx
      · simp [hx]
      · exact ih x hx
    · rw [if_neg hc] at hx
      rcases h : splitSlash cs with _ | ⟨e, rest⟩
      · exact absurd h (splitSlash_ne_nil cs)
      · rw [h] at hx
        rcases List.mem_cons.mp hx with hx | hx
        · subst hx
          have he : '/' ∉ e := ih e (h ▸ List.mem_cons_self e rest)
          simp [List.mem_cons]
          exact ⟨fun hcc => hc hcc.symm, he⟩
        · exact ih x (h ▸ List.mem_cons_of_mem e hx)

theorem writeInto_length (b data : List Nat) :
    (writeInto b data).length = b.length := by
  simp [writeInto]
  omega

theorem readAt_buffer_length (bucket : Bucket) (f : openFile) (b : List Nat)
    (offset : Int) : (f.ReadAt bucket b offset).2.1.length = b.length := by
  simp only [openFile.ReadAt]
  split
  · rfl
  · split
    · rfl
    · split
      · rfl
      · split
        · simp [writeInto_length]
        · split <;> simp [writeInto_length]

theorem readAt_state (bucket : Bucket) (f : openFile) (b : List Nat)
    (offset : Int) : (f.ReadAt bucket b offset).1 = f := by
  simp only [openFile.ReadAt]
  split
  · rfl
  · split
    · rfl
    · split
      · rfl
      · split
        · rfl
        · split <;> rfl

theorem lookup_attr_error (bucket : Bucket) (name : Str) (e : Err)
    (hv : validPath name = true) (hr : name ≠ ['.'])
    (ha : bucket.attributes name = .error e) :
    lookup bucket name = searchDir bucket name := by
  simp [lookup, hv, hr, ha]

theorem lookup_attr_ok (bucket : Bucket) (name : Str) (attr : Attributes)
    (hv : validPath name = true) (hr : name ≠ ['.'])
    (ha : bucket.attributes name = .ok attr) :
    lookup bucket name = .ok ⟨⟨name, attr.modTime, attr.size, attr.md5, false⟩⟩ := by
  simp [lookup, hv, hr, ha]

/-! ### Concrete instances used by witnesses and counterexamples -/

instance {α β : Type} [DecidableEq α] [DecidableEq β] :
    DecidableEq (Except α β)
  | .error a, .error b =>
    if h : a = b then .isTrue (by rw [h]) else .isFalse (by simp [h])
  | .error _, .ok _ => .isFalse (by simp)
  | .ok _, .error _ => .isFalse (by simp)
  | .ok a, .ok b =>
    if h : a = b then .isTrue (by rw [h]) else .isFalse (by simp [h])

/-- A file entry of size 5 with key "a", cursor at 0. -/
def fC1 : openFile := ⟨⟨⟨['a'], 0, 5, [], false⟩⟩, 0⟩

/-- A bucket whose range reader always yields the bytes 1..5. -/
def bucketC1 : Bucket :=
  ⟨fun _ => .error .notExist, fun _ => [],
    fun _ _ _ => .ok ⟨[1, 2, 3, 4, 5], none, none⟩⟩

/-- A bucket whose attributes call fails with a backend error (not
not-found) and whose listings are empty. -/
def bucketC3 : Bucket :=
  ⟨fun _ => .error (.backend 7), fun _ => [], fun _ _ _ => .error (.backend 0)⟩

/-- A bucket holding one zero-size object at every key. -/
def bucketC10 : Bucket :=
  ⟨fun _ => .ok ⟨0, 0, []⟩, fun _ => [], fun _ _ _ => .error (.backend 0)⟩

/-- The directory marker object the backend lists for "d": its key is
"d/". -/
def objC4 : ListObject := ⟨['d', '/'], 0, 0, [], true⟩

/-- A bucket with no object at any key whose listing yields the "d/"
directory marker first. -/
def bucketC4 : Bucket :=
  ⟨fun _ => .error .notExist, fun _ => [.ok objC4],
    fun _ _ _ => .error (.backend 0)⟩

/-- A bucket with no objects and empty listings. -/
def bucketC8a : Bucket :=
  ⟨fun _ => .error .notExist, fun _ => [], fun _ _ _ => .error (.backend 0)⟩

/-- A bucket whose listing's first key does not match "d/". -/
def bucketC8c : Bucket :=
  ⟨fun _ => .error .notExist, fun _ => [.ok ⟨['x'], 0, 0, [], false⟩],
    fun _ _ _ => .error (.backend 0)⟩

/-- A bucket whose listing fails immediately with a backend error. -/
def bucketC8d : Bucket :=
  ⟨fun _ => .error .notExist, fun _ => [.error (.backend 5)],
    fun _ _ _ => .error (.backend 0)⟩

/-! ### Claims -/

/-- C1: on an open file handle of size S, ReadAt with a non-empty
buffer and offset at or past S returns 0 bytes with the end-of-stream
signal (io.EOF); and when a backend read is performed and the bytes
read satisfy offset + bytesRead = S, ReadAt returns io.EOF together
with those bytes even though the backend read itself succeeded. -/
theorem C1_readAt_end_of_stream (bucket : Bucket) (f : openFile) (b : List Nat)
    (offset : Int) (hb : b ≠ []) :
    (f.self.Size ≤ offset → f.ReadAt bucket b offset = (f, b, 0, some .eof)) ∧
    (∀ r, offset < f.self.Size →
      bucket.newRangeReader f.self.Path offset (b.length : Int) = .ok r →
      offset + (r.data.length : Int) = f.self.Size →
      f.ReadAt bucket b offset
        = (f, writeInto b r.data, r.data.length, some .eof)) := by
  have hlen : ¬ b.length = 0 := by simpa using hb
  constructor
  · intro hS
    rw [openFile.ReadAt, if_neg hlen, if_pos hS]
  · intro r hlt hrr hend
    rw [openFile.ReadAt, if_neg hlen, if_neg (not_le.mpr hlt), hrr]
    simp only [hend, if_pos]

/-- C1 witness: with size 5, ReadAt at offset 5 gives (0, io.EOF), and
a full read from offset 0 returns the 5 bytes together with io.EOF. -/
theorem C1_witness :
    openFile.ReadAt bucketC1 fC1 [0, 0, 0] 5 = (fC1, [0, 0, 0], 0, some .eof) ∧
    openFile.ReadAt bucketC1 fC1 [0, 0, 0, 0, 0] 0
      = (fC1, [1, 2, 3, 4, 5], 5, some .eof) := by
  constructor
  · exact (C1_readAt_end_of_stream bucketC1 fC1 [0, 0, 0] 5 (by decide)).1
      (by decide)
  · have h := (C1_readAt_end_of_stream bucketC1 fC1 [0, 0, 0, 0, 0] 0
      (by decide)).2 ⟨[1, 2, 3, 4, 5], none, none⟩ (by decide) rfl (by decide)
    exact h.trans (by decide)

/-- C9: ReadAt never mutates the handle: the handle component of the
result equals the handle before the call, in every branch (empty
buffer, offset past the size, backend failure, successful read,
forced end-of-stream). -/
theorem C9_readAt_preserves_cursor (bucket : Bucket) (f : openFile)
    (b : List Nat) (offset : Int) : (f.ReadAt bucket b offset).1 = f :=
  readAt_state bucket f b offset

/-- C10: for a path resolving to a file of declared size 0, ReadFile
allocates an empty buffer, the single ReadAt takes the empty-buffer
branch returning (0, nil) before the end-of-offset check, and ReadFile's
non-EOF branch returns that nil error with a nil byte slice: success
with no bytes and no error. -/
theorem C10_readFile_zero_size (bucket : Bucket) (name : Str)
    (attr : Attributes) (hv : validPath name = true) (hr : name ≠ ['.'])
    (ha : bucket.attributes name = .ok attr) (hs : attr.size = 0) :
    ReadFile bucket name = (none, none) := by
  have hl := lookup_attr_ok bucket name attr hv hr ha
  simp [ReadFile, Open, hl, fileListEntry.IsDir, newOpenFile,
    fileListEntry.Size, hs, openFile.ReadAt]

/-- C10 witness: ReadFile of a zero-size object returns (nil, nil). -/
theorem C10_witness : ReadFile bucketC10 ['a'] = (none, none) :=
  C10_readFile_zero_size bucketC10 ['a'] ⟨0, 0, []⟩ (by decide) (by decide)
    rfl rfl

/-- C3 counterexample: the attributes fetch fails with a backend error
that is not a not-found signal, yet lookup does not propagate it: the
fallback probe runs anyway and, finding nothing, lookup returns
fs.ErrNotExist instead of the backend error. -/
theorem C3_counterexample :
    bucketC3.attributes ['a'] = .error (.backend 7) ∧
    validPath ['a'] = true ∧
    lookup bucketC3 ['a'] = .error .notExist ∧
    Err.notExist ≠ Err.backend 7 := by
  refine ⟨rfl, by decide, by decide, by decide⟩

/-- C3 (amended): lookup takes the directory-probe fallback whenever
the attributes fetch fails with any error, not only not-found; the
attributes error itself is discarded and lookup's outcome is exactly
the probe's outcome. -/
theorem C3_lookup_falls_back_on_any_error (bucket : Bucket) (name : Str)
    (e : Err) (hv : validPath name = true) (hr : name ≠ ['.'])
    (ha : bucket.attributes name = .error e) :
    lookup bucket name = searchDir bucket name :=
  lookup_attr_error bucket name e hv hr ha

/-- C3 witness: with a backend-failing attributes call, lookup equals
the probe result. -/
theorem C3_witness : lookup bucketC3 ['a'] = searchDir bucketC3 ['a'] :=
  C3_lookup_falls_back_on_any_error bucketC3 ['a'] (.backend 7) (by decide)
    (by decide) rfl

theorem getLastD_mem_of_ne_nil {α : Type} (l : List α) (d : α) (h : l ≠ []) :
    l.getLastD d ∈ l := by
  rcases l with _ | ⟨x, rest⟩
  · exact absurd rfl h
  · rw [List.getLastD_eq_getLast?, List.getLast?_eq_getLast _ (by simp),
      Option.getD_some]
    exact List.getLast_mem _

theorem name_no_slash (e : fileListEntry) : '/' ∉ e.Name := by
  rw [fileListEntry.Name]
  split
  · simp
  · exact slash_not_mem_of_mem_splitSlash (trimSuffixSlash e.obj.key) _
      (getLastD_mem_of_ne_nil _ _ (splitSlash_ne_nil _))

theorem searchDir_unfold (bucket : Bucket) (name : Str)
    (hts : trimSuffixSlash name = name) :
    searchDir bucket name =
      (match bucket.listResults ⟨['/'], name⟩ with
      | [] => .error .notExist
      | .error .eof :: _ => .error .notExist
      | .error e :: _ => .error e
      | .ok obj :: _ =>
        if obj.key = name ++ ['/'] then .ok ⟨obj⟩
        else .error .notExist) := by
  simp only [searchDir, hts]

theorem searchDir_ok_key (bucket : Bucket) (name : Str) (e : fileListEntry)
    (hts : trimSuffixSlash name = name)
    (h : searchDir bucket name = .ok e) :
    e.obj.key = name ++ ['/'] := by
  rw [searchDir_unfold bucket name hts] at h
  rcases hlist : bucket.listResults ⟨['/'], name⟩ with _ | ⟨hd, tl⟩ <;>
    rw [hlist] at h
  · simp at h
  · rcases hd with e2 | obj
    · cases e2 <;> simp at h
    · simp only [] at h
      split at h
      · rename_i hkey
        obtain rfl : e = ⟨obj⟩ := (Except.ok.inj h).symm
        exact hkey
      · simp at h

/-- C4 counterexample: the directory probe stores the listed object
as-is, so the resolved entry for the virtual directory "d" stores the
key "d/", which ends in the path separator, contradicting the claimed
invariant. -/
theorem C4_counterexample :
    lookup bucketC4 ['d'] = .ok ⟨objC4⟩ ∧
    (fileListEntry.mk objC4).obj.key.getLast? = some '/' := by
  refine ⟨by decide, by decide⟩

/-- C4 (amended): the root entry and entries resolved through the
attributes path store keys with no trailing separator, but an entry
produced by the directory probe stores the listed key, which equals
the path followed by the separator and hence does end in '/'; the
derived Name never contains the separator, so the trailing-separator
convention stays internal to the stored key. -/
theorem C4_stored_key_amended (bucket : Bucket) (name : Str)
    (hv : validPath name = true) (hr : name ≠ ['.']) :
    rootFile.obj.key.getLast? ≠ some '/' ∧
    (∀ attr, bucket.attributes name = .ok attr →
      lookup bucket name = .ok ⟨⟨name, attr.modTime, attr.size, attr.md5, false⟩⟩ ∧
      name.getLast? ≠ some '/') ∧
    (∀ e err, bucket.attributes name = .error err →
      lookup bucket name = .ok e →
      e.obj.key = name ++ ['/'] ∧ e.obj.key.getLast? = some '/' ∧
      '/' ∉ e.Name) := by
  refine ⟨by decide, ?_, ?_⟩
  · intro attr ha
    exact ⟨lookup_attr_ok bucket name attr hv hr ha,
      validPath_getLast_ne_slash name hv⟩
  · intro e err ha hok
    rw [lookup_attr_error bucket name err hv hr ha] at hok
    have hkey : e.obj.key = name ++ ['/'] :=
      searchDir_ok_key bucket name e (trimSuffixSlash_of_validPath name hv) hok
    refine ⟨hkey, ?_, name_no_slash e⟩
    rw [hkey]
    exact List.getLast?_concat _

/-- C4 witness: for the probe-resolved directory the stored key is the
path plus separator, and for an attribute-resolved file the key is the
bare path without a trailing separator. -/
theorem C4_witness :
    (lookup bucketC4 ['d'] = .ok ⟨objC4⟩ → objC4.key = ['d'] ++ ['/']) ∧
    lookup bucketC10 ['a'] = .ok ⟨⟨['a'], 0, 0, [], false⟩⟩ ∧
    (['a'] : Str).getLast? ≠ some '/' := by
  have h4 := C4_stored_key_amended bucketC4 ['d'] (by decide) (by decide)
  have h10 := C4_stored_key_amended bucketC10 ['a'] (by decide) (by decide)
  refine ⟨fun hok => ?_, ?_, ?_⟩
  · exact (h4.2.2 ⟨objC4⟩ .notExist rfl hok).1
  · exact (h10.2.1 ⟨0, 0, []⟩ rfl).1
  · exact (h10.2.1 ⟨0, 0, []⟩ rfl).2

/-- C8: for a valid non-root path whose attributes fetch fails, the
resolver lists with the path as prefix and "/" as delimiter and
inspects only the first result: an empty listing yields NotExist; a
first key equal to path + "/" yields the Entry of that listed object
(carrying the backend's directory marker); a differing first key
yields NotExist; any other listing error propagates unchanged. -/
theorem C8_directory_probe (bucket : Bucket) (name : Str) (e0 : Err)
    (hv : validPath name = true) (hr : name ≠ ['.'])
    (ha : bucket.attributes name = .error e0) :
    (bucket.listResults ⟨['/'], name⟩ = [] →
      lookup bucket name = .error .notExist) ∧
    (∀ tl, bucket.listResults ⟨['/'], name⟩ = .error .eof :: tl →
      lookup bucket name = .error .notExist) ∧
    (∀ obj tl, bucket.listResults ⟨['/'], name⟩ = .ok obj :: tl →
      (obj.key = name ++ ['/'] →
        lookup bucket name = .ok ⟨obj⟩ ∧
        (obj.isDir = true → fileListEntry.IsDir ⟨obj⟩ = true)) ∧
      (obj.key ≠ name ++ ['/'] →
        lookup bucket name = .error .notExist)) ∧
    (∀ e tl, bucket.listResults ⟨['/'], name⟩ = .error e :: tl →
      e ≠ .eof → lookup bucket name = .error e) := by
  have hts := trimSuffixSlash_of_validPath name hv
  have hl := lookup_attr_error bucket name e0 hv hr ha
  rw [hl, searchDir_unfold bucket name hts]
  refine ⟨?_, ?_, ?_, ?_⟩
  · intro h
    rw [h]
  · intro tl h
    rw [h]
  · intro obj tl h
    rw [h]
    constructor
    · intro hk
      refine ⟨by simp [hk], ?_⟩
      intro hd
      simpa [fileListEntry.IsDir] using hd
    · intro hk
      simp [hk]
  · intro e tl h he
    rw [h]
    cases e <;> simp_all

/-- C8 witness: the four probe outcomes at concrete buckets — empty
listing, matching first key, mismatching first key, and a mid-listing
backend error. -/
theorem C8_witness :
    lookup bucketC8a ['d'] = .error .notExist ∧
    lookup bucketC4 ['d'] = .ok ⟨objC4⟩ ∧
    lookup bucketC8c ['d'] = .error .notExist ∧
    lookup bucketC8d ['d'] = .error (.backend 5) := by
  refine ⟨?_, ?_, ?_, ?_⟩
  · exact (C8_directory_probe bucketC8a ['d'] .notExist (by decide)
      (by decide) rfl).1 rfl
  · exact ((C8_directory_probe bucketC4 ['d'] .notExist (by decide)
      (by decide) rfl).2.2.1 objC4 [] rfl).1 (by decide) |>.1
  · exact ((C8_directory_probe bucketC8c ['d'] .notExist (by decide)
      (by decide) rfl).2.2.1 ⟨['x'], 0, 0, [], false⟩ [] rfl).2 (by decide)
  · exact (C8_directory_probe bucketC8d ['d'] .notExist (by decide)
      (by decide) rfl).2.2.2 (.backend 5) [] rfl (by decide)

/-- A root-level file entry "a". -/
def entryA : fileListEntry := ⟨⟨['a'], 0, 0, [], false⟩⟩

/-- A root-level file entry "b". -/
def entryB : fileListEntry := ⟨⟨['b'], 0, 0, [], false⟩⟩

/-- An open directory with a single not-yet-returned child. -/
def dirC2 : openDir := ⟨rootFile, [entryA], 0⟩

/-- An open directory with two not-yet-returned children. -/
def dirC2b : openDir := ⟨rootFile, [entryA, entryB], 0⟩

/-- C2 counterexample: with k = 1 child remaining and n = 2 (k < n),
ReadDir returns the single remaining child with a nil error — not
together with the end-of-stream signal the claim asserts; io.EOF only
appears on a later call that finds nothing left. -/
theorem C2_counterexample :
    dirC2.ReadDir 2 = (⟨rootFile, [entryA], 1⟩, [entryA], none) ∧
    (dirC2.ReadDir 2).2.2 ≠ some Err.eof := by
  refine ⟨by decide, by decide⟩

/-- C2 (amended): with k children not yet returned, ReadDir(n) with
n > 0 returns min(n, k) children and advances the cursor by that
count; it signals end-of-stream only when k = 0 (returning no
children), while 0 < k < n returns the k remaining children with a nil
error; ReadDir(n) with n <= 0 returns all k remaining children without
an end-of-stream signal, and an empty result with no error when
k = 0. -/
theorem C2_readDir_amended (d : openDir) (n : Int)
    (hoff : d.offset ≤ d.entries.length) :
    (0 < n → d.entries.length - d.offset = 0 →
      d.ReadDir n = (d, [], some .eof)) ∧
    (∀ k, k = d.entries.length - d.offset → 0 < n → 0 < k →
      d.ReadDir n = (⟨d.self, d.entries, d.offset + min k n.toNat⟩,
        (d.entries.drop d.offset).take (min k n.toNat), none)) ∧
    (n ≤ 0 → d.ReadDir n = (⟨d.self, d.entries, d.entries.length⟩,
      d.entries.drop d.offset, none)) := by
  simp only [openDir.ReadDir]
  refine ⟨?_, ?_, ?_⟩
  · intro hn hk
    have h1 : ¬(0 < n ∧ n < (d.entries.length : Int) - (d.offset : Int)) := by
      omega
    rw [if_neg h1,
      if_pos (show ((d.entries.length : Int) - (d.offset : Int)) = 0 by omega),
      if_neg (show ¬ n ≤ 0 by omega)]
  · intro k hk hn hkpos
    by_cases hlt : n < (d.entries.length : Int) - (d.offset : Int)
    · have hin : (if 0 < n ∧ n < (d.entries.length : Int) - (d.offset : Int)
          then n else (d.entries.length : Int) - (d.offset : Int)) = n :=
        if_pos (And.intro hn hlt)
      rw [hin, if_neg (show ¬ n = 0 by omega),
        show min k n.toNat = n.toNat by omega]
    · have hin : (if 0 < n ∧ n < (d.entries.length : Int) - (d.offset : Int)
          then n else (d.entries.length : Int) - (d.offset : Int))
          = (d.entries.length : Int) - (d.offset : Int) :=
        if_neg (fun h => hlt h.2)
      rw [hin,
        if_neg (show ¬ ((d.entries.length : Int) - (d.offset : Int)) = 0 by
          omega),
        show min k n.toNat = k by omega,
        show ((d.entries.length : Int) - (d.offset : Int)).toNat = k by omega]
  · intro hn
    have hin : (if 0 < n ∧ n < (d.entries.length : Int) - (d.offset : Int)
        then n else (d.entries.length : Int) - (d.offset : Int))
        = (d.entries.length : Int) - (d.offset : Int) :=
      if_neg (by omega)
    rw [hin]
    by_cases h0 : ((d.entries.length : Int) - (d.offset : Int)) = 0
    · rw [if_pos h0, if_pos hn]
      have ho : d.offset = d.entries.length := by omega
      have hd : (⟨d.self, d.entries, d.entries.length⟩ : openDir) = d := by
        rw [← ho]
      have hdrop : d.entries.drop d.offset = [] := by
        rw [ho, List.drop_length]
      rw [hd, hdrop]
    · rw [if_neg h0]
      have h2 : ((d.entries.length : Int) - (d.offset : Int)).toNat
          = d.entries.length - d.offset := by omega
      rw [h2]
      have h3 : d.offset + (d.entries.length - d.offset)
          = d.entries.length := by omega
      rw [h3]
      have h4 : (d.entries.drop d.offset).take (d.entries.length - d.offset)
          = d.entries.drop d.offset := by
        apply List.take_of_length_le
        simp
      rw [h4]

/-- C2 witness: end-of-stream with nothing left and n > 0; a partial
page n = 1 of 2 remaining; and ReadDir(-1) returning everything. -/
theorem C2_witness :
    openDir.ReadDir ⟨rootFile, [entryA], 1⟩ 1
      = (⟨rootFile, [entryA], 1⟩, [], some .eof) ∧
    dirC2b.ReadDir 1 = (⟨rootFile, [entryA, entryB], 1⟩, [entryA], none) ∧
    dirC2b.ReadDir (-1)
      = (⟨rootFile, [entryA, entryB], 2⟩, [entryA, entryB], none) := by
  refine ⟨?_, ?_, ?_⟩
  · exact (C2_readDir_amended ⟨rootFile, [entryA], 1⟩ 1 (by decide)).1
      (by decide) (by decide)
  · have h := (C2_readDir_amended dirC2b 1 (by decide)).2.1 2 (by decide)
      (by decide) (by decide)
    exact h.trans (by decide)
  · have h := (C2_readDir_amended dirC2b (-1) (by decide)).2.2 (by decide)
    exact h.trans (by decide)

theorem readFile_file (bucket : Bucket) (name : Str) (e : fileListEntry)
    (hl : lookup bucket name = .ok e) (hdir : e.IsDir = false) :
    ReadFile bucket name =
      (match (newOpenFile e).ReadAt bucket
          (List.replicate e.Size.toNat 0) 0 with
      | (_, b2, _, err) =>
        if err = some .eof then (some b2, none) else (none, err)) := by
  simp [ReadFile, Open, hl, hdir, newOpenFile, fileListEntry.Size]

/-- C5: ReadFile fails with the "is a directory" PathError when the
path resolves to a directory handle; otherwise it allocates a zeroed
buffer whose length is the entry's declared size and performs exactly
one ReadAt at offset 0: when that ReadAt reports io.EOF, ReadFile
returns the filled buffer (whose length is the declared size), and
when it reports any other error, ReadFile fails with that error. -/
theorem C5_readFile (bucket : Bucket) (name : Str) :
    (∀ e d, lookup bucket name = .ok e → e.IsDir = true →
      newOpenDir bucket e = .ok d →
      ReadFile bucket name
        = (none, some (.pathError opRead name .isADirectory))) ∧
    (∀ e, lookup bucket name = .ok e → e.IsDir = false →
      (∀ b2 k, (newOpenFile e).ReadAt bucket
          (List.replicate e.Size.toNat 0) 0 = (newOpenFile e, b2, k, some .eof) →
        ReadFile bucket name = (some b2, none) ∧ b2.length = e.Size.toNat) ∧
      (∀ b2 k err, (newOpenFile e).ReadAt bucket
          (List.replicate e.Size.toNat 0) 0 = (newOpenFile e, b2, k, some err) →
        err ≠ .eof → ReadFile bucket name = (none, some err))) := by
  constructor
  · intro e d hl hdir hnd
    simp [ReadFile, Open, hl, hdir, hnd]
  · intro e hl hdir
    constructor
    · intro b2 k hra
      refine ⟨?_, ?_⟩
      · rw [readFile_file bucket name e hl hdir, hra]
        simp
      · have hlen := readAt_buffer_length bucket (newOpenFile e)
          (List.replicate e.Size.toNat 0) 0
        rw [hra] at hlen
        simpa using hlen
    · intro b2 k err hra herr
      rw [readFile_file bucket name e hl hdir, hra]
      simp [herr]

/-- A bucket with a 3-byte object at every key whose reads succeed and
deliver all 3 bytes. -/
def bucketC5ok : Bucket :=
  ⟨fun _ => .ok ⟨0, 3, []⟩, fun _ => [],
    fun _ _ _ => .ok ⟨[9, 8, 7], none, none⟩⟩

/-- A bucket with a 3-byte object whose reads deliver one byte and
then fail with a backend error. -/
def bucketC5err : Bucket :=
  ⟨fun _ => .ok ⟨0, 3, []⟩, fun _ => [],
    fun _ _ _ => .ok ⟨[9], some (.backend 2), none⟩⟩

/-- C5 witness: ReadFile on a directory fails with "is a directory";
on a 3-byte file with a full successful read it returns the 3 bytes;
on a file whose read fails mid-way it propagates the backend error. -/
theorem C5_witness :
    ReadFile bucketC4 ['d']
      = (none, some (.pathError opRead ['d'] .isADirectory)) ∧
    ReadFile bucketC5ok ['a'] = (some [9, 8, 7], none) ∧
    ReadFile bucketC5err ['a'] = (none, some (.backend 2)) := by
  refine ⟨?_, ?_, ?_⟩
  · exact (C5_readFile bucketC4 ['d']).1 ⟨objC4⟩ ⟨⟨objC4⟩, [⟨objC4⟩], 0⟩
      (by decide) (by decide) (by decide)
  · exact (((C5_readFile bucketC5ok ['a']).2 ⟨⟨['a'], 0, 3, [], false⟩⟩
      (by decide) (by decide)).1 [9, 8, 7] 3 (by decide)).1
  · exact ((C5_readFile bucketC5err ['a']).2 ⟨⟨['a'], 0, 3, [], false⟩⟩
      (by decide) (by decide)).2 [9, 0, 0] 1 (.backend 2) (by decide)
      (by decide)

/-- C6: Seek computes the target from start, current cursor, or end
according to whence 0/1/2; it rejects an unrecognized whence or a
target outside [0, size] with an invalid-argument PathError, leaving
the cursor unchanged, and on success stores and returns the target; in
particular seeking to exactly size succeeds and seeking to size + 1 or
to -1 fails. -/
theorem C6_seek (f : openFile) (offset whence : Int) :
    (¬(whence = 0 ∨ whence = 1 ∨ whence = 2) →
      f.Seek offset whence
        = (f, 0, some (.pathError opSeek f.self.Path .invalid))) ∧
    (∀ target, target = (if whence = 1 then offset + f.offset
        else if whence = 2 then offset + f.self.Size else offset) →
      (whence = 0 ∨ whence = 1 ∨ whence = 2) →
      ((target < 0 ∨ f.self.Size < target) →
        f.Seek offset whence
          = (f, 0, some (.pathError opSeek f.self.Path .invalid))) ∧
      (0 ≤ target → target ≤ f.self.Size →
        f.Seek offset whence = (⟨f.self, target⟩, target, none))) ∧
    (0 ≤ f.self.Size →
      f.Seek f.self.Size 0 = (⟨f.self, f.self.Size⟩, f.self.Size, none) ∧
      f.Seek (f.self.Size + 1) 0
        = (f, 0, some (.pathError opSeek f.self.Path .invalid)) ∧
      f.Seek (-1) 0
        = (f, 0, some (.pathError opSeek f.self.Path .invalid))) := by
  have main : ∀ off wh : Int, (wh = 0 ∨ wh = 1 ∨ wh = 2) →
      ∀ target, target = (if wh = 1 then off + f.offset
        else if wh = 2 then off + f.self.Size else off) →
      ((target < 0 ∨ f.self.Size < target) →
        f.Seek off wh
          = (f, 0, some (.pathError opSeek f.self.Path .invalid))) ∧
      (0 ≤ target → target ≤ f.self.Size →
        f.Seek off wh = (⟨f.self, target⟩, target, none)) := by
    intro off wh hw target ht
    constructor
    · intro hout
      simp only [openFile.Seek, if_pos hw]
      rw [← ht, if_pos hout]
    · intro h0 hS
      simp only [openFile.Seek, if_pos hw]
      rw [← ht,
        if_neg (show ¬(target < 0 ∨ f.self.Size < target) by omega)]
  refine ⟨?_, ?_, ?_⟩
  · intro hw
    simp only [openFile.Seek, if_neg hw]
  · intro target ht hw
    exact main offset whence hw target ht
  · intro hS0
    have h0 := main f.self.Size 0 (Or.inl rfl) f.self.Size (by norm_num)
    have h1 := main (f.self.Size + 1) 0 (Or.inl rfl) (f.self.Size + 1)
      (by norm_num)
    have h2 := main (-1) 0 (Or.inl rfl) (-1) (by norm_num)
    exact ⟨h0.2 hS0 le_rfl, h1.1 (Or.inr (by omega)), h2.1 (Or.inl (by omega))⟩

/-- A file handle of size 5 with the cursor at 2. -/
def fC6 : openFile := ⟨⟨⟨['a'], 0, 5, [], false⟩⟩, 2⟩

/-- C6 witness: unrecognized whence 3 fails; seek 0 from end lands on
5 = size; seek to exactly size succeeds; size + 1 and -1 fail with the
cursor unchanged. -/
theorem C6_witness :
    openFile.Seek fC6 0 3 = (fC6, 0, some (.pathError opSeek ['a'] .invalid)) ∧
    openFile.Seek fC6 0 2 = (⟨fC6.self, 5⟩, 5, none) ∧
    openFile.Seek fC6 5 0 = (⟨fC6.self, 5⟩, 5, none) ∧
    openFile.Seek fC6 6 0 = (fC6, 0, some (.pathError opSeek ['a'] .invalid)) ∧
    openFile.Seek fC6 (-1) 0
      = (fC6, 0, some (.pathError opSeek ['a'] .invalid)) := by
  refine ⟨?_, ?_, ?_, ?_, ?_⟩
  · exact ((C6_seek fC6 0 3).1 (by decide)).trans (by decide)
  · exact (((C6_seek fC6 0 2).2.1 5 (by decide) (by decide)).2 (by decide)
      (by decide)).trans (by decide)
  · exact (((C6_seek fC6 0 0).2.2 (by decide)).1).trans (by decide)
  · exact (((C6_seek fC6 0 0).2.2 (by decide)).2.1).trans (by decide)
  · exact (((C6_seek fC6 0 0).2.2 (by decide)).2.2).trans (by decide)

/-- C7: Read with an empty buffer returns 0 bytes and no error; with a
non-empty buffer and the cursor at or past the size it returns 0 bytes
with io.EOF; otherwise it issues one ranged backend read at the cursor
for the buffer length, advances the cursor by exactly the bytes
actually returned (also when the backend read errors: the cursor still
advances by the partial count, and a failed reader construction
returns 0 bytes with the cursor unchanged), and returns that count
alongside any backend error. -/
theorem C7_read (bucket : Bucket) (f : openFile) (b : List Nat) :
    (b = [] → f.Read bucket b = (f, 0, none)) ∧
    (b ≠ [] → f.self.Size ≤ f.offset → f.Read bucket b = (f, 0, some .eof)) ∧
    (b ≠ [] → f.offset < f.self.Size →
      (∀ e, bucket.newRangeReader f.self.Path f.offset (b.length : Int)
          = .error e →
        f.Read bucket b = (f, 0, some (.pathError opRead f.self.Path e))) ∧
      (∀ r, bucket.newRangeReader f.self.Path f.offset (b.length : Int)
          = .ok r →
        f.Read bucket b = (⟨f.self, f.offset + (r.data.length : Int)⟩,
          r.data.length,
          match r.readErr with
          | some e => some e
          | none => r.closeErr))) := by
  refine ⟨?_, ?_, ?_⟩
  · rintro rfl
    rw [openFile.Read, if_pos (show ([] : List Nat).length = 0 from rfl)]
  · intro hb hle
    have hlen : ¬ b.length = 0 := by simpa using hb
    rw [openFile.Read, if_neg hlen, if_pos hle]
  · intro hb hlt
    have hlen : ¬ b.length = 0 := by simpa using hb
    constructor
    · intro e hrr
      rw [openFile.Read, if_neg hlen, if_neg (not_le.mpr hlt), hrr]
    · intro r hrr
      rw [openFile.Read, if_neg hlen, if_neg (not_le.mpr hlt), hrr]
      cases hre : r.readErr <;> simp [hre]

/-- A file handle of size 5 with the cursor at 1. -/
def fC7 : openFile := ⟨⟨⟨['a'], 0, 5, [], false⟩⟩, 1⟩

/-- A bucket whose reader construction fails with a backend error. -/
def bucketC7err : Bucket :=
  ⟨fun _ => .error .notExist, fun _ => [],
    fun _ _ _ => .error (.backend 3)⟩

/-- A bucket whose reader delivers two bytes and then errors. -/
def bucketC7ok : Bucket :=
  ⟨fun _ => .error .notExist, fun _ => [],
    fun _ _ _ => .ok ⟨[4, 4], some (.backend 9), none⟩⟩

/-- C7 witness: empty buffer no-op; cursor at size gives io.EOF;
failed reader construction wraps the backend error with the cursor
unchanged; a partial read of 2 bytes advances the cursor from 1 to 3
and returns the read error alongside the count. -/
theorem C7_witness :
    openFile.Read bucketC7ok fC7 [] = (fC7, 0, none) ∧
    openFile.Read bucketC7ok ⟨fC7.self, 5⟩ [0] = (⟨fC7.self, 5⟩, 0, some .eof) ∧
    openFile.Read bucketC7err fC7 [0, 0]
      = (fC7, 0, some (.pathError opRead ['a'] (.backend 3))) ∧
    openFile.Read bucketC7ok fC7 [0, 0] = (⟨fC7.self, 3⟩, 2, some (.backend 9)) := by
  refine ⟨?_, ?_, ?_, ?_⟩
  · exact (C7_read bucketC7ok fC7 []).1 rfl
  · exact (C7_read bucketC7ok ⟨fC7.self, 5⟩ [0]).2.1 (by decide) (by decide)
  · exact (((C7_read bucketC7err fC7 [0, 0]).2.2 (by decide) (by decide)).1
      (.backend 3) rfl).trans (by decide)
  · exact (((C7_read bucketC7ok fC7 [0, 0]).2.2 (by decide) (by decide)).2
      ⟨[4, 4], some (.backend 9), none⟩ rfl).trans (by decide)

end Blobfs
